/-
Verification of the emergency-session core of the happy-yellow-kiwi app.

The development shallowly embeds the TypeScript sources:
  * src/types/accessibility.ts      — data model (sessions, audit entries, profiles)
  * src/services/SecureStorage.ts   — size-routed secure storage, session persistence,
                                      bounded audit log
  * src/services/EncryptedAsyncStorage.ts — XOR cipher over hex strings
  * src/services/EmergencyContactService.ts — contact notification with
                                      primary-then-secondary fallback
  * App.tsx                         — the emergency status-change handler and
                                      app initialization

Modelling conventions:
  * JSON text is represented by its parse tree (`Json`); a persisted string blob
    is `Blob.text j` for any string that `JSON.parse` turns into `j`, or
    `Blob.corrupt` for a string `JSON.parse` rejects.  `JSON.stringify` of a
    value is modelled by the encoder producing the corresponding `Json` tree
    (field order and omission of `undefined` fields follow the source).
  * The unchecked TypeScript casts (`JSON.parse(x) as T`) never validate, so the
    decoders are total: a missing or ill-typed field decodes to a junk default
    (the Lean image of the runtime `undefined` that the cast lets through).
  * Platform storage primitives (SecureStore / AsyncStorage) are modelled as
    association lists; the three logical SecureStorage keys are modelled as
    three blob slots of `KV` (a read of a key after a write of the same key
    always sees the written value in the source's two-store routing, so one
    merged slot per logical key is faithful).
  * Collaborator calls (location fetch, SMS delivery) are parameterized by
    explicit outcome values, and timestamps by an explicit `now` string.
  * Machine reals (latitude/longitude/accuracy) are modelled as rationals; no
    arithmetic is performed on them in the embedded code paths.
-/
import Mathlib

/-! ## Data model (src/types/accessibility.ts) -/

/-- The `EmergencyStatus` union type. -/
inductive EmergencyStatus
  | detection
  | confirmation
  | in_progress
  | follow_up
  | cancelled
  | completed
deriving DecidableEq, Repr

/-- The `AuditEntry` interface: `timestamp`, `action`, optional `details`/`userId`. -/
structure AuditEntry where
  timestamp : String
  action : String
  details : Option String
  userId : Option String
deriving DecidableEq, Repr

/-- The inline `location` struct of `EmergencySession`. -/
structure LocationData where
  latitude : ℚ
  longitude : ℚ
  accuracy : ℚ
  timestamp : String
deriving DecidableEq, Repr

/-- The `EmergencyContact` interface. -/
structure EmergencyContact where
  id : String
  name : String
  relationship : String
  phoneNumber : String
  isPrimary : Bool
deriving DecidableEq, Repr

/-- The inline `personalInfo` struct of `MedicalProfile`. -/
structure PersonalInfo where
  firstName : String
  lastName : String
  dateOfBirth : String
  bloodType : Option String
  allergies : List String
  medications : List String
deriving DecidableEq, Repr

/-- The `MedicalProfile` interface. -/
structure MedicalProfile where
  id : String
  personalInfo : PersonalInfo
  emergencyContacts : List EmergencyContact
  medicalConditions : List String
  additionalNotes : Option String
  lastUpdated : String
deriving DecidableEq, Repr

/-- The `EmergencySession` interface. -/
structure EmergencySession where
  id : String
  startTime : String
  status : EmergencyStatus
  location : Option LocationData
  medicalProfileId : String
  contactsNotified : List String
  auditLog : List AuditEntry
deriving DecidableEq, Repr

/-! ## JSON values and persisted blobs -/

/-- A JSON parse tree (numbers as rationals). -/
inductive Json
  | null
  | bool (b : Bool)
  | num (q : ℚ)
  | str (s : String)
  | arr (elems : List Json)
  | obj (fields : List (String × Json))

/-- A persisted string blob, identified with its `JSON.parse` behavior:
`text j` stands for any string parsing to `j`; `corrupt` for any string
`JSON.parse` throws on. -/
inductive Blob
  | text (j : Json)
  | corrupt

/-- Object field access (`x.f` on a parsed JSON object). -/
def Json.getField : Json → String → Option Json
  | Json.obj fields, k => fields.lookup k
  | _, _ => none

/-- Read a string field; a missing or ill-typed field yields the junk default
`""` (the image of the `undefined` the unchecked cast lets through). -/
def getStrField (j : Json) (k : String) : String :=
  match j.getField k with
  | some (Json.str s) => s
  | _ => ""

/-- Read a numeric field with junk default `0`. -/
def getNumField (j : Json) (k : String) : ℚ :=
  match j.getField k with
  | some (Json.num q) => q
  | _ => 0

/-- Read an array field with junk default `[]`. -/
def getArrField (j : Json) (k : String) : List Json :=
  match j.getField k with
  | some (Json.arr xs) => xs
  | _ => []

/-- Read an optional string field (`undefined` vs present). -/
def getOptStrField (j : Json) (k : String) : Option String :=
  match j.getField k with
  | some v =>
    match v with
    | Json.str s => some s
    | _ => some ""
  | none => none

/-! ## Serialization (JSON.stringify / JSON.parse with unchecked casts) -/

/-- The literal string of an `EmergencyStatus` value. -/
def encodeStatus : EmergencyStatus → String
  | .detection => "detection"
  | .confirmation => "confirmation"
  | .in_progress => "in_progress"
  | .follow_up => "follow_up"
  | .cancelled => "cancelled"
  | .completed => "completed"

/-- Read a status string back; an unrecognized string decodes to the junk
default `detection` (the unchecked cast performs no validation). -/
def decodeStatus (s : String) : EmergencyStatus :=
  if s = "detection" then .detection
  else if s = "confirmation" then .confirmation
  else if s = "in_progress" then .in_progress
  else if s = "follow_up" then .follow_up
  else if s = "cancelled" then .cancelled
  else if s = "completed" then .completed
  else .detection

/-- The `JSON.stringify` image of an `AuditEntry`; `undefined` optional fields are
omitted, as the source builds them. -/
def encodeAuditEntry (e : AuditEntry) : Json :=
  Json.obj
    ([("timestamp", Json.str e.timestamp), ("action", Json.str e.action)]
      ++ (match e.details with
          | some d => [("details", Json.str d)]
          | none => [])
      ++ (match e.userId with
          | some u => [("userId", Json.str u)]
          | none => []))

/-- Decode an `AuditEntry` (total; unchecked cast semantics). -/
def decodeAuditEntry (j : Json) : AuditEntry :=
  { timestamp := getStrField j "timestamp"
    action := getStrField j "action"
    details := getOptStrField j "details"
    userId := getOptStrField j "userId" }

/-- The `JSON.stringify` image of the inline location struct. -/
def encodeLocation (l : LocationData) : Json :=
  Json.obj
    [("latitude", Json.num l.latitude), ("longitude", Json.num l.longitude),
     ("accuracy", Json.num l.accuracy), ("timestamp", Json.str l.timestamp)]

/-- Decode the inline location struct (total). -/
def decodeLocation (j : Json) : LocationData :=
  { latitude := getNumField j "latitude"
    longitude := getNumField j "longitude"
    accuracy := getNumField j "accuracy"
    timestamp := getStrField j "timestamp" }

/-- Decode a JSON value as a string (array elements of `contactsNotified`). -/
def jsonAsString : Json → String
  | Json.str s => s
  | _ => ""

/-- The `JSON.stringify` image of an `EmergencySession`; an absent `location` is omitted
from the object, exactly as `JSON.stringify` drops `undefined` fields. -/
def encodeSession (s : EmergencySession) : Json :=
  Json.obj
    ([("id", Json.str s.id), ("startTime", Json.str s.startTime),
      ("status", Json.str (encodeStatus s.status))]
      ++ (match s.location with
          | some l => [("location", encodeLocation l)]
          | none => [])
      ++ [("medicalProfileId", Json.str s.medicalProfileId),
          ("contactsNotified", Json.arr (s.contactsNotified.map Json.str)),
          ("auditLog", Json.arr (s.auditLog.map encodeAuditEntry))])

/-- Decode an `EmergencySession` (total; unchecked cast semantics; a missing
`location` field decodes to an absent location). -/
def decodeSession (j : Json) : EmergencySession :=
  { id := getStrField j "id"
    startTime := getStrField j "startTime"
    status := decodeStatus (getStrField j "status")
    location := (j.getField "location").map decodeLocation
    medicalProfileId := getStrField j "medicalProfileId"
    contactsNotified := (getArrField j "contactsNotified").map jsonAsString
    auditLog := (getArrField j "auditLog").map decodeAuditEntry }

/-! ### Serialization round-trip lemmas -/

theorem decodeStatus_encodeStatus (st : EmergencyStatus) :
    decodeStatus (encodeStatus st) = st := by
  cases st <;> rfl

theorem decodeAuditEntry_encodeAuditEntry (e : AuditEntry) :
    decodeAuditEntry (encodeAuditEntry e) = e := by
  obtain ⟨t, a, d, u⟩ := e
  cases d <;> cases u <;> rfl

theorem decodeLocation_encodeLocation (l : LocationData) :
    decodeLocation (encodeLocation l) = l := by
  obtain ⟨la, lo, ac, ts⟩ := l
  rfl

theorem map_decode_encode_audit (l : List AuditEntry) :
    l.map (decodeAuditEntry ∘ encodeAuditEntry) = l := by
  induction l with
  | nil => rfl
  | cons e t ih => simp [decodeAuditEntry_encodeAuditEntry, ih]

theorem map_asString_str (l : List String) :
    l.map (jsonAsString ∘ Json.str) = l := by
  induction l with
  | nil => rfl
  | cons e t ih => simp [jsonAsString, ih]

theorem decodeSession_encodeSession (s : EmergencySession) :
    decodeSession (encodeSession s) = s := by
  obtain ⟨i, st, status, loc, mid, cn, al⟩ := s
  cases loc <;>
    simp [encodeSession, decodeSession, getStrField, getNumField, getArrField,
      getOptStrField, Json.getField, List.lookup, decodeStatus_encodeStatus,
      map_decode_encode_audit, map_asString_str, decodeLocation_encodeLocation]

/-! ## Profile decoding (getMedicalProfile's unchecked cast) -/

/-- Decode an `EmergencyContact` (total; unchecked cast semantics). -/
def decodeContact (j : Json) : EmergencyContact :=
  { id := getStrField j "id"
    name := getStrField j "name"
    relationship := getStrField j "relationship"
    phoneNumber := getStrField j "phoneNumber"
    isPrimary :=
      match j.getField "isPrimary" with
      | some (Json.bool b) => b
      | _ => false }

/-- Decode the inline `personalInfo` struct (total). -/
def decodePersonalInfo (j : Json) : PersonalInfo :=
  { firstName := getStrField j "firstName"
    lastName := getStrField j "lastName"
    dateOfBirth := getStrField j "dateOfBirth"
    bloodType := getOptStrField j "bloodType"
    allergies := (getArrField j "allergies").map jsonAsString
    medications := (getArrField j "medications").map jsonAsString }

/-- Decode a `MedicalProfile` (total; unchecked cast semantics). -/
def decodeProfile (j : Json) : MedicalProfile :=
  { id := getStrField j "id"
    personalInfo :=
      match j.getField "personalInfo" with
      | some p => decodePersonalInfo p
      | none => decodePersonalInfo Json.null
    emergencyContacts := (getArrField j "emergencyContacts").map decodeContact
    medicalConditions := (getArrField j "medicalConditions").map jsonAsString
    additionalNotes := getOptStrField j "additionalNotes"
    lastUpdated := getStrField j "lastUpdated" }

/-! ## SecureStorage (src/services/SecureStorage.ts), blob level

The class persists three logical keys (`medical_profile`, `emergency_session`,
`audit_log`), each routed by size between the two physical stores
(`storeData`/`retrieveData`, modelled at the string level further below).  A
read of a logical key after a write of the same key always sees the written
value, so at this level the storage is modelled as one blob slot per logical
key.  Platform storage faults are outside the model (the stores themselves
always succeed); `Except` captures the errors SecureStorage itself raises. -/

structure KV where
  medicalProfileBlob : Option Blob
  sessionBlob : Option Blob
  auditBlob : Option Blob

/-- The audit-log truncation in `addAuditEntry`: keep only the last 50
entries (`auditLog.slice(-50)` applied when the length exceeds 50). -/
def truncAudit (log : List Json) : List Json :=
  if log.length > 50 then log.drop (log.length - 50) else log

/-- Embeds `SecureStorage.addAuditEntry`: read the current log (absent reads as the
empty log), push the entry, truncate to the last 50, write back.  Every error
is swallowed (`catch` + `console.error`, no rethrow), so a corrupt stored log
— or one that parsed to a non-array, on which `.push` would throw — leaves the
store unchanged. -/
def addAuditEntry (e : AuditEntry) (kv : KV) : KV :=
  match kv.auditBlob with
  | some Blob.corrupt => kv
  | some (Blob.text (Json.arr xs)) =>
      { kv with auditBlob := some (Blob.text (Json.arr (truncAudit (xs ++ [encodeAuditEntry e])))) }
  | some (Blob.text _) => kv
  | none =>
      { kv with auditBlob := some (Blob.text (Json.arr (truncAudit ([] ++ [encodeAuditEntry e])))) }

/-- Embeds `SecureStorage.saveEmergencySession`: stringify, store under the session
key, then log an `emergency_session_saved` audit entry. -/
def saveEmergencySession (now : String) (s : EmergencySession) (kv : KV) : KV :=
  addAuditEntry
    { timestamp := now, action := "emergency_session_saved",
      details := some ("Session " ++ s.id ++ " saved with status: "
        ++ encodeStatus s.status),
      userId := none }
    { kv with sessionBlob := some (Blob.text (encodeSession s)) }

/-- Embeds `SecureStorage.getEmergencySession`: absent data returns `null`; corrupt
data makes `JSON.parse` throw and the `catch` rethrows a wrapped error;
otherwise the parsed value is cast (unchecked) to a session and an
`emergency_session_accessed` audit entry is logged. -/
def getEmergencySession (now : String) (kv : KV) :
    Except String (Option EmergencySession × KV) :=
  match kv.sessionBlob with
  | none => .ok (none, kv)
  | some Blob.corrupt => .error "Failed to retrieve emergency session"
  | some (Blob.text j) =>
      let s := decodeSession j
      .ok (some s,
        addAuditEntry
          { timestamp := now, action := "emergency_session_accessed",
            details := some ("Session " ++ s.id ++ " accessed"),
            userId := none } kv)

/-- Embeds `SecureStorage.deleteEmergencySession`: clear both physical copies of the
session key, then log an `emergency_session_deleted` audit entry. -/
def deleteEmergencySession (now : String) (kv : KV) : KV :=
  addAuditEntry
    { timestamp := now, action := "emergency_session_deleted",
      details := some "Emergency session data cleared", userId := none }
    { kv with sessionBlob := none }

/-- Embeds `SecureStorage.getMedicalProfile`: same shape as the session load, with a
`medical_profile_accessed` audit entry naming the profile. -/
def getMedicalProfile (now : String) (kv : KV) :
    Except String (Option MedicalProfile × KV) :=
  match kv.medicalProfileBlob with
  | none => .ok (none, kv)
  | some Blob.corrupt => .error "Failed to retrieve medical profile"
  | some (Blob.text j) =>
      let p := decodeProfile j
      .ok (some p,
        addAuditEntry
          { timestamp := now, action := "medical_profile_accessed",
            details := some ("Profile accessed for " ++ p.personalInfo.firstName
              ++ " " ++ p.personalInfo.lastName),
            userId := none } kv)

/-! ## App-level state machine (App.tsx)

`handleStatusChange` and `initializeApp` are embedded as pure functions over
an explicit app state.  The two collaborator calls of the `in_progress`
branch — the location race and the contact notification — are parameterized
by their outcomes; `now` stands for the wall clock read by `Date.now()` /
`new Date().toISOString()` during the call.  The `setTimeout` scheduled by
the terminal branch is modelled by the `pendingReset` flag together with
`fireGraceDelay`, the timer's callback. -/

/-- Outcome of `Promise.race([getLocationForEmergency(), timeout])`:
a location value, a `null` resolution, or a rejection with a message (the
5-second race loses as a rejection with message `"Location timeout"`). -/
inductive LocationOutcome
  | success (loc : LocationData)
  | nullResult
  | failure (msg : String)

/-- Outcome of `EmergencyContactService.notifyEmergencyContacts`: the list of
notified names, or a thrown error. -/
inductive NotifyOutcome
  | ok (names : List String)
  | error (msg : String)

/-- The `locationStatus` string variable of the `in_progress` branch. -/
def locStatusString : LocationOutcome → String
  | .success _ => "obtained"
  | .nullResult => "permission_denied"
  | .failure msg => if msg = "Location timeout" then "timeout" else "failed"

/-- The `location` value bound after the race (`null` on any failure path). -/
def locValue : LocationOutcome → Option LocationData
  | .success l => some l
  | _ => none

/-- The React component state of `App`, plus the externally visible effects
(screen-reader announcements, alert dialogs) and the pending terminal-reset
timer. -/
structure AppModel where
  displayedStatus : EmergencyStatus
  sessionSlot : Option EmergencySession
  profileSlot : Option MedicalProfile
  kv : KV
  announcements : List String
  alerts : List String
  pendingReset : Bool

/-- The three location-dependent announcement strings of the `in_progress`
branch. -/
def inProgressAnnouncement (lstat : String) : String :=
  if lstat = "permission_denied" then
    "Emergency activated. Location permission was denied - emergency contacts will be notified without location."
  else if lstat = "obtained" then
    "Emergency activated. Your location and medical information are being shared with emergency contacts."
  else
    "Emergency activated. Emergency contacts are being notified. Location information unavailable."

/-- The shared `completed`/`cancelled` branch of `handleStatusChange`: if a
session is held, stamp it terminal, append the `emergency_<status>` audit
entry and persist; in all cases schedule the 3-second reset to `detection`. -/
def terminalStep (now : String) (newStatus : EmergencyStatus) (m : AppModel) : AppModel :=
  let m1 :=
    match m.sessionSlot with
    | none => m
    | some es =>
        let entry : AuditEntry :=
          { timestamp := now, action := "emergency_" ++ encodeStatus newStatus,
            details := some ("Emergency " ++ encodeStatus newStatus), userId := none }
        let s1 : EmergencySession :=
          { es with status := newStatus, auditLog := es.auditLog ++ [entry] }
        { m with sessionSlot := some s1, kv := saveEmergencySession now s1 m.kv }
  { m1 with pendingReset := true }

/-- Embeds `handleStatusChange` (App.tsx): sets the displayed status, then branches
on the requested status.  `detection` and `follow_up` have no branch in the
source, so they fall through with only the displayed status changed. -/
def handleStatusChange (now : String) (locOut : LocationOutcome)
    (notifyOut : NotifyOutcome) (m : AppModel) (newStatus : EmergencyStatus) : AppModel :=
  let m0 := { m with displayedStatus := newStatus }
  match newStatus with
  | .confirmation =>
      let session : EmergencySession :=
        { id := "emergency_" ++ now, startTime := now, status := .confirmation,
          location := none,
          medicalProfileId :=
            match m0.profileSlot with
            | some p => p.id
            | none => "unknown",
          contactsNotified := [],
          auditLog := [AuditEntry.mk now "emergency_initiated" (some "Emergency button pressed") none] }
      { m0 with sessionSlot := some session, kv := saveEmergencySession now session m0.kv }
  | .in_progress =>
      match m0.sessionSlot with
      | none => m0
      | some es =>
          let lstat := locStatusString locOut
          let confirmEntry : AuditEntry :=
            { timestamp := now, action := "emergency_confirmed",
              details := some ("Emergency confirmed - Location: " ++ lstat), userId := none }
          let s1 : EmergencySession :=
            { es with status := .in_progress, location := locValue locOut,
                      auditLog := es.auditLog ++ [confirmEntry] }
          let s2 : EmergencySession :=
            match m0.profileSlot with
            | none => s1
            | some _ =>
                match notifyOut with
                | .ok names =>
                    let notifiedEntry : AuditEntry :=
                      { timestamp := now, action := "contacts_notified",
                        details := some ("Notified " ++ toString names.length ++ " contacts - Location status: " ++ lstat), userId := none }
                    { s1 with contactsNotified := names, auditLog := s1.auditLog ++ [notifiedEntry] }
                | .error msg =>
                    let failedEntry : AuditEntry :=
                      { timestamp := now, action := "contact_notification_failed",
                        details := some ("Failed to notify contacts: " ++ msg), userId := none }
                    { s1 with auditLog := s1.auditLog ++ [failedEntry] }
          { m0 with sessionSlot := some s2,
                    kv := saveEmergencySession now s2 m0.kv,
                    announcements := m0.announcements ++ [inProgressAnnouncement lstat] }
  | .completed => terminalStep now .completed m0
  | .cancelled => terminalStep now .cancelled m0
  | _ => m0

/-- The callback of the 3-second `setTimeout` scheduled by the terminal
branch: return to `detection` and clear the in-memory session slot.  The
persisted session is not touched. -/
def fireGraceDelay (m : AppModel) : AppModel :=
  if m.pendingReset then
    { m with displayedStatus := .detection, sessionSlot := none, pendingReset := false }
  else m

/-- The initial component state of `App` (`useState` defaults). -/
def initialAppModel (kv : KV) : AppModel :=
  { displayedStatus := .detection, sessionSlot := none, profileSlot := none,
    kv := kv, announcements := [], alerts := [], pendingReset := false }

/-- Embeds `initializeApp` (App.tsx): load the profile and the session; a session
whose status is terminal (or an absent one) leaves the slot empty and the
status at `detection`; a load error is caught and logged, leaving the
component state at its defaults. -/
def initializeApp (now : String) (kv0 : KV) : AppModel :=
  match getMedicalProfile now kv0 with
  | .error _ => initialAppModel kv0
  | .ok (profile, kv1) =>
      match getEmergencySession now kv1 with
      | .error _ => initialAppModel kv1
      | .ok (sessionOpt, kv2) =>
          let base : AppModel := { initialAppModel kv2 with profileSlot := profile }
          match sessionOpt with
          | some s =>
              if s.status ≠ .completed ∧ s.status ≠ .cancelled then
                { base with sessionSlot := some s, displayedStatus := s.status }
              else base
          | none => base

/-! ## Contact notification (src/services/EmergencyContactService.ts)

`notifyEmergencyContacts` is embedded with its two collaborator results as
parameters: `smsAvailable` (the `SMS.isAvailableAsync()` check) and `send`,
the per-contact delivery outcome of `sendEmergencyText` — which itself never
throws: it returns `false` both when `SMS.sendSMSAsync` reports non-delivery
and when it throws (both arms are caught in the source).  The audit entries
the service writes do not influence the returned list and are elided here. -/

/-- One `for (const contact of ...)` loop body: send, and push the contact's
name on success. -/
def sendLoop (send : EmergencyContact → Bool) : List EmergencyContact → List String
  | [] => []
  | c :: rest =>
      if send c then c.name :: sendLoop send rest else sendLoop send rest

/-- Embeds `EmergencyContactService.notifyEmergencyContacts`: if SMS is unavailable
return the empty list; otherwise try every primary contact, and only if none
succeeded try every secondary contact; return the names that succeeded in
attempt order. -/
def notifyEmergencyContacts (smsAvailable : Bool) (send : EmergencyContact → Bool)
    (profile : MedicalProfile) : List String :=
  if !smsAvailable then []
  else
    let primaryContacts := profile.emergencyContacts.filter (fun c => c.isPrimary)
    let secondaryContacts := profile.emergencyContacts.filter (fun c => !c.isPrimary)
    let notifiedContacts := sendLoop send primaryContacts
    if notifiedContacts.isEmpty then sendLoop send secondaryContacts
    else notifiedContacts

/-- The contacts `notifyEmergencyContacts` attempts (the ones passed to
`sendEmergencyText`), in order: all primary contacts, then — exactly when no
primary succeeded — all secondary contacts. -/
def attemptedContacts (smsAvailable : Bool) (send : EmergencyContact → Bool)
    (profile : MedicalProfile) : List EmergencyContact :=
  if !smsAvailable then []
  else
    let primaryContacts := profile.emergencyContacts.filter (fun c => c.isPrimary)
    let secondaryContacts := profile.emergencyContacts.filter (fun c => !c.isPrimary)
    if (sendLoop send primaryContacts).isEmpty then
      primaryContacts ++ secondaryContacts
    else primaryContacts

/-- The success-collecting loop is filtering by `send` and mapping to names. -/
theorem sendLoop_eq_filter_map (send : EmergencyContact → Bool) (l : List EmergencyContact) :
    sendLoop send l = (l.filter send).map EmergencyContact.name := by
  induction l with
  | nil => rfl
  | cons c rest ih =>
      by_cases h : send c <;> simp [sendLoop, List.filter_cons, h, ih]

/-! ## XOR cipher (src/services/EncryptedAsyncStorage.ts)

`encrypt`/`decrypt` operate on the UTF-8 bytes of the plaintext
(`TextEncoder`/`TextDecoder`) and on hex strings for keys and ciphertext.
Plaintext is modelled by its byte sequence (`List Nat`, each < 256);
`TextEncoder.encode` / `TextDecoder.decode` are then the identity.  Hex keys
and ciphertext are genuine Lean strings, so the regex behavior
(`.match(/.{2}/g)` returning `null` on strings shorter than two characters
and dropping a trailing odd character) is captured. -/

/-- One lowercase hex digit (`n.toString(16)` for `n < 16`). -/
def hexDigitChar (n : Nat) : Char :=
  if n < 10 then Char.ofNat (48 + n) else Char.ofNat (87 + n)

/-- The two hex characters of `b.toString(16).padStart(2, '0')` for a byte. -/
def byteHexChars (b : Nat) : List Char :=
  [hexDigitChar (b / 16), hexDigitChar (b % 16)]

/-- Embeds `bytes.map(b => b.toString(16).padStart(2, '0')).join('')`. -/
def bytesToHex (bs : List Nat) : String :=
  String.mk ((bs.map byteHexChars).flatten)

/-- Embeds `s.match(/.{2}/g)` on the character level: consecutive pairs, a trailing
odd character dropped. -/
def chunkPairs : List Char → List (Char × Char)
  | a :: b :: rest => (a, b) :: chunkPairs rest
  | _ => []

/-- Embeds the fact that `s.match(/.{2}/g)` returns `null` when there is no match at all. -/
def hexPairsOf (s : String) : Option (List (Char × Char)) :=
  match chunkPairs s.data with
  | [] => none
  | ps => some ps

/-- Embeds `parseInt(digit, 16)` for one character; a non-hex character yields `NaN`
in the source, modelled as the junk value `0` (unreached on well-formed hex). -/
def hexDigitVal (c : Char) : Nat :=
  if 48 ≤ c.toNat ∧ c.toNat ≤ 57 then c.toNat - 48
  else if 97 ≤ c.toNat ∧ c.toNat ≤ 102 then c.toNat - 87
  else if 65 ≤ c.toNat ∧ c.toNat ≤ 70 then c.toNat - 55
  else 0

/-- Embeds `parseInt(pair, 16)` for one two-character chunk. -/
def pairVal (p : Char × Char) : Nat :=
  16 * hexDigitVal p.1 + hexDigitVal p.2

/-- The XOR loop `encrypted[i] = dataBytes[i] ^ keyBytes[i % keyBytes.length]`,
with the running index made explicit. -/
def xorWithKey (keyBytes : List Nat) : Nat → List Nat → List Nat
  | _, [] => []
  | i, d :: rest =>
      (d ^^^ keyBytes.getD (i % keyBytes.length) 0) :: xorWithKey keyBytes (i + 1) rest

/-- Embeds `EncryptedAsyncStorage.encrypt`: parse the hex key (throwing on a key the
regex rejects), XOR the data bytes against the cycled key bytes, and render
the result as hex. -/
def encrypt (dataBytes : List Nat) (key : String) : Except String String :=
  match hexPairsOf key with
  | none => .error "Invalid encryption key format"
  | some kps =>
      let keyBytes := kps.map pairVal
      .ok (bytesToHex (xorWithKey keyBytes 0 dataBytes))

/-- Embeds `EncryptedAsyncStorage.decrypt`: parse both hex strings (throwing when
either fails the regex — in particular on an empty ciphertext), XOR again,
and return the decoded bytes. -/
def decrypt (encryptedData : String) (key : String) : Except String (List Nat) :=
  match hexPairsOf key, hexPairsOf encryptedData with
  | some kps, some eps =>
      let keyBytes := kps.map pairVal
      let encryptedBytes := eps.map pairVal
      .ok (xorWithKey keyBytes 0 encryptedBytes)
  | _, _ => .error "Invalid encryption data format"

/-! ### Cipher round-trip lemmas -/

theorem hexDigitVal_hexDigitChar (n : Nat) (h : n < 16) :
    hexDigitVal (hexDigitChar n) = n := by
  interval_cases n <;> decide

theorem pairVal_byteHexChars (b : Nat) (h : b < 256) :
    pairVal (hexDigitChar (b / 16), hexDigitChar (b % 16)) = b := by
  have h1 : b / 16 < 16 := by omega
  have h2 : b % 16 < 16 := Nat.mod_lt _ (by omega)
  simp [pairVal, hexDigitVal_hexDigitChar _ h1, hexDigitVal_hexDigitChar _ h2]
  omega

theorem chunkPairs_flatten (bs : List Nat) :
    chunkPairs ((bs.map byteHexChars).flatten)
      = bs.map (fun b => (hexDigitChar (b / 16), hexDigitChar (b % 16))) := by
  induction bs with
  | nil => rfl
  | cons b rest ih => simp [byteHexChars, chunkPairs, ih]

theorem chunkPairs_bytesToHex (bs : List Nat) :
    chunkPairs (bytesToHex bs).data
      = bs.map (fun b => (hexDigitChar (b / 16), hexDigitChar (b % 16))) :=
  chunkPairs_flatten bs

theorem hexPairs_bytesToHex (bs : List Nat) (hne : bs ≠ []) :
    hexPairsOf (bytesToHex bs)
      = some (bs.map (fun b => (hexDigitChar (b / 16), hexDigitChar (b % 16)))) := by
  rw [hexPairsOf, chunkPairs_bytesToHex]
  cases bs with
  | nil => exact absurd rfl hne
  | cons b rest => rfl

theorem list_map_self {α : Type} (f : α → α) :
    ∀ (l : List α), (∀ x ∈ l, f x = x) → l.map f = l
  | [], _ => rfl
  | x :: t, h => by
      simp only [List.map_cons, h x (by simp)]
      exact congrArg (x :: ·) (list_map_self f t (fun y hy => h y (by simp [hy])))

theorem parse_bytesToHex (bs : List Nat) (hne : bs ≠ []) (hlt : ∀ b ∈ bs, b < 256) :
    (hexPairsOf (bytesToHex bs)).map (List.map pairVal) = some bs := by
  rw [hexPairs_bytesToHex bs hne]
  simp only [Option.map_some', List.map_map, Option.some.injEq]
  exact list_map_self _ bs (fun b hb => pairVal_byteHexChars b (hlt b hb))

theorem getD_lt_256 (l : List Nat) (h : ∀ b ∈ l, b < 256) (n : Nat) : l.getD n 0 < 256 := by
  rcases hg : l[n]? with _ | v
  · simp [List.getD_eq_getElem?_getD, hg]
  · have hv : v ∈ l := List.getElem?_mem hg
    simpa [List.getD_eq_getElem?_getD, hg] using h v hv

theorem xorWithKey_lt_256 (keyBytes : List Nat) (hk : ∀ b ∈ keyBytes, b < 256) :
    ∀ (i : Nat) (ds : List Nat), (∀ b ∈ ds, b < 256) →
      ∀ b ∈ xorWithKey keyBytes i ds, b < 256
  | _, [], _ => by intro b hb; simp [xorWithKey] at hb
  | i, d :: rest, hd => by
      intro b hb
      simp only [xorWithKey, List.mem_cons] at hb
      rcases hb with hb | hb
      · subst hb
        have h1 : d < 256 := hd d (by simp)
        have h2 : keyBytes.getD (i % keyBytes.length) 0 < 256 := getD_lt_256 keyBytes hk _
        have h3 := Nat.xor_lt_two_pow (n := 8) (by simpa using h1) (by simpa using h2)
        simpa using h3
      · exact xorWithKey_lt_256 keyBytes hk (i + 1) rest (fun x hx => hd x (by simp [hx])) b hb

theorem xorWithKey_involutive (keyBytes : List Nat) :
    ∀ (i : Nat) (ds : List Nat), xorWithKey keyBytes i (xorWithKey keyBytes i ds) = ds
  | _, [] => rfl
  | i, d :: rest => by
      simp [xorWithKey, Nat.xor_cancel_right, xorWithKey_involutive keyBytes (i + 1) rest]

theorem xorWithKey_ne_nil (keyBytes : List Nat) (i : Nat) (ds : List Nat) (h : ds ≠ []) :
    xorWithKey keyBytes i ds ≠ [] := by
  cases ds with
  | nil => exact absurd rfl h
  | cons d rest => simp [xorWithKey]

/-! ## Size-routed physical storage (SecureStorage.storeData)

The string level of `SecureStorage`: two association-list stores — the
secure-enclave `SecureStore` (which also holds the `enc_key_<dataType>`
cipher keys of `EncryptedAsyncStorage`) and the general `AsyncStorage`
(holding hex ciphertext).  Values are Lean strings; the plaintext handed to
the cipher is its UTF-8 byte sequence.  The random 32-byte key generated on
first use by `generateEncryptionKey` is passed in as the `fresh` parameter. -/

/-- UTF-8 bytes of a string (`TextEncoder.encode`). -/
def strBytes (s : String) : List Nat :=
  s.toUTF8.toList.map (fun b => b.toNat)

/-- Insert or overwrite a key in an association-list store. -/
def assocSet (l : List (String × String)) (k v : String) : List (String × String) :=
  (k, v) :: l.filter (fun p => !(p.1 == k))

/-- Delete a key from an association-list store (absence is not an error). -/
def assocDel (l : List (String × String)) (k : String) : List (String × String) :=
  l.filter (fun p => !(p.1 == k))

/-- The two physical stores. -/
structure RawState where
  secure : List (String × String)
  async : List (String × String)

/-- Embeds `EncryptedAsyncStorage.getEncryptionKey`: read the per-dataType key from
the enclave store, generating (and persisting) `fresh` on first use. -/
def getEncryptionKey (dataType : String) (fresh : String) (st : RawState) :
    String × RawState :=
  match st.secure.lookup ("enc_key_" ++ dataType) with
  | some k => (k, st)
  | none => (fresh, { st with secure := assocSet st.secure ("enc_key_" ++ dataType) fresh })

/-- Embeds `EncryptedAsyncStorage.setItem`: fetch-or-create the key, encrypt, store
the hex ciphertext in `AsyncStorage`; an `encrypt` throw propagates wrapped. -/
def setItem (dataType data : String) (fresh : String) (st : RawState) :
    Except String RawState :=
  let (key, st1) := getEncryptionKey dataType fresh st
  match encrypt (strBytes data) key with
  | .error _ => .error ("Failed to store encrypted data for " ++ dataType)
  | .ok cipher => .ok { st1 with async := assocSet st1.async dataType cipher }

/-- Embeds `SecureStorage.storeData`: values of length at most 1536 go to the
enclave store (`SecureStore.setItemAsync`); larger values go encrypted to the
general store, after which the stale enclave copy is deleted.  Nothing
deletes a stale general-store copy on the small path. -/
def storeData (key data : String) (fresh : String) (st : RawState) :
    Except String RawState :=
  if data.length ≤ 1536 then
    .ok { st with secure := assocSet st.secure key data }
  else
    match setItem key data fresh st with
    | .error e => .error e
    | .ok st1 => .ok { st1 with secure := assocDel st1.secure key }

/-! ## Supporting lemmas -/

/-- The map `addAuditEntry` only touches the audit-log slot. -/
theorem addAuditEntry_sessionBlob (e : AuditEntry) (kv : KV) :
    (addAuditEntry e kv).sessionBlob = kv.sessionBlob := by
  unfold addAuditEntry
  rcases kv with ⟨mp, sb, ab⟩
  rcases ab with _ | b
  · rfl
  · rcases b with j | _
    · cases j <;> rfl
    · rfl

/-- The session slot written by `saveEmergencySession`. -/
theorem saveEmergencySession_sessionBlob (now : String) (s : EmergencySession) (kv : KV) :
    (saveEmergencySession now s kv).sessionBlob = some (Blob.text (encodeSession s)) := by
  unfold saveEmergencySession
  rw [addAuditEntry_sessionBlob]

/-- C8: saving an emergency session and then loading it yields a session equal
to the original in all fields; in particular an absent `location` field is
omitted by serialization and decodes back to an absent location. -/
theorem save_load_roundtrip (now1 now2 : String) (s : EmergencySession) (kv : KV) :
    (getEmergencySession now2 (saveEmergencySession now1 s kv)).map Prod.fst
      = .ok (some s) := by
  unfold getEmergencySession
  rw [saveEmergencySession_sessionBlob]
  simp [decodeSession_encodeSession, Except.map]

/-- C9: for a non-empty byte string and a 32-byte key rendered as 64 hex
characters, decryption inverts encryption; for the empty byte string,
encryption yields the empty ciphertext, which decryption rejects with the
invalid-format error (the `/.{2}/g` match returns `null` on it). -/
theorem encrypt_decrypt_roundtrip (dataBytes keyBytes : List Nat)
    (hne : dataBytes ≠ []) (hdata : ∀ b ∈ dataBytes, b < 256)
    (hklen : keyBytes.length = 32) (hkb : ∀ b ∈ keyBytes, b < 256) :
    (∃ cipher, encrypt dataBytes (bytesToHex keyBytes) = .ok cipher ∧
        decrypt cipher (bytesToHex keyBytes) = .ok dataBytes) ∧
    encrypt [] (bytesToHex keyBytes) = .ok "" ∧
    decrypt "" (bytesToHex keyBytes) = .error "Invalid encryption data format" := by
  have hkne : keyBytes ≠ [] := by
    intro h
    rw [h] at hklen
    simp at hklen
  have hkp := hexPairs_bytesToHex keyBytes hkne
  have hkv : (keyBytes.map fun b => (hexDigitChar (b / 16), hexDigitChar (b % 16))).map pairVal
      = keyBytes := by
    have := parse_bytesToHex keyBytes hkne hkb
    rw [hkp] at this
    simpa using this
  have hencLt : ∀ b ∈ xorWithKey keyBytes 0 dataBytes, b < 256 :=
    xorWithKey_lt_256 keyBytes hkb 0 dataBytes hdata
  have hencNe : xorWithKey keyBytes 0 dataBytes ≠ [] :=
    xorWithKey_ne_nil keyBytes 0 dataBytes hne
  have hep := hexPairs_bytesToHex (xorWithKey keyBytes 0 dataBytes) hencNe
  have hev : ((xorWithKey keyBytes 0 dataBytes).map
        fun b => (hexDigitChar (b / 16), hexDigitChar (b % 16))).map pairVal
      = xorWithKey keyBytes 0 dataBytes := by
    have := parse_bytesToHex (xorWithKey keyBytes 0 dataBytes) hencNe hencLt
    rw [hep] at this
    simpa using this
  refine ⟨⟨bytesToHex (xorWithKey keyBytes 0 dataBytes), ?_, ?_⟩, ?_, ?_⟩
  · rw [encrypt, hkp]
    simp [hkv]
  · rw [decrypt, hkp, hep]
    simp [hkv, hev, xorWithKey_involutive]
  · rw [encrypt, hkp]
    rfl
  · rw [decrypt, hkp]
    rfl

/-- Witness for C9 at concrete bytes `"hi"` and the key `00 01 ... 1f`. -/
theorem encrypt_decrypt_roundtrip_witness :
    (∃ cipher, encrypt [104, 105] (bytesToHex (List.range 32)) = .ok cipher ∧
        decrypt cipher (bytesToHex (List.range 32)) = .ok [104, 105]) ∧
    encrypt [] (bytesToHex (List.range 32)) = .ok "" ∧
    decrypt "" (bytesToHex (List.range 32)) = .error "Invalid encryption data format" :=
  encrypt_decrypt_roundtrip [104, 105] (List.range 32) (by decide) (by decide)
    (by decide) (by decide)

/-! ## C5: bounded audit log -/

/-- The truncation keeps exactly the last 50 elements (natural subtraction
makes the short case a `drop 0`). -/
theorem truncAudit_eq_drop (l : List Json) : truncAudit l = l.drop (l.length - 50) := by
  unfold truncAudit
  split
  · rfl
  · next h =>
      have h0 : l.length - 50 = 0 := by omega
      simp [h0]

/-- Folding push-then-truncate from any short seed keeps the last 50 of the
whole stream, oldest first. -/
theorem auditFold_drop :
    ∀ (js acc : List Json), acc.length ≤ 50 →
      js.foldl (fun l j => truncAudit (l ++ [j])) acc
        = (acc ++ js).drop ((acc ++ js).length - 50)
  | [], acc, h => by
      have h0 : acc.length - 50 = 0 := by omega
      simp [h0]
  | j :: js, acc, h => by
      rw [List.foldl_cons]
      have hstep : truncAudit (acc ++ [j]) = (acc ++ [j]).drop ((acc.length + 1) - 50) := by
        simpa using truncAudit_eq_drop (acc ++ [j])
      have hlen : ((acc ++ [j]).drop ((acc.length + 1) - 50)).length ≤ 50 := by
        simp
        omega
      rw [hstep, auditFold_drop js _ hlen]
      have hd : (acc.length + 1) - 50 ≤ (acc ++ [j]).length := by
        simp
        omega
      rw [← List.drop_append_of_le_length hd, List.drop_drop]
      have hassoc : (acc ++ [j]) ++ js = acc ++ (j :: js) := by simp
      rw [hassoc]
      congr 1
      simp
      omega

/-- An empty `KV` (fresh install: nothing persisted yet). -/
def kvEmpty : KV :=
  { medicalProfileBlob := none, sessionBlob := none, auditBlob := none }

/-- A fold of `addAuditEntry` over a store whose audit slot holds a JSON
array tracks the pure push-then-truncate fold. -/
theorem addAuditEntry_fold :
    ∀ (es : List AuditEntry) (mp sb : Option Blob) (xs : List Json),
      es.foldl (fun kv e => addAuditEntry e kv)
          { medicalProfileBlob := mp, sessionBlob := sb, auditBlob := some (Blob.text (Json.arr xs)) }
        = { medicalProfileBlob := mp, sessionBlob := sb,
            auditBlob := some (Blob.text (Json.arr
              ((es.map encodeAuditEntry).foldl (fun l j => truncAudit (l ++ [j])) xs))) }
  | [], mp, sb, xs => rfl
  | e :: es, mp, sb, xs => by
      rw [List.foldl_cons]
      show es.foldl (fun kv e => addAuditEntry e kv)
          { medicalProfileBlob := mp, sessionBlob := sb,
            auditBlob := some (Blob.text (Json.arr (truncAudit (xs ++ [encodeAuditEntry e])))) } = _
      rw [addAuditEntry_fold es mp sb (truncAudit (xs ++ [encodeAuditEntry e]))]
      simp

/-- C5: appending a non-empty sequence of audit entries to a fresh store
pushes each entry at the end and truncates to the most recent 50, so the
stored log is exactly the last 50 of the stream, oldest first — with 60
sequential appends, entries 10 through 59. -/
theorem auditLog_cap (es : List AuditEntry) (hne : es ≠ []) :
    (es.foldl (fun kv e => addAuditEntry e kv) kvEmpty).auditBlob
      = some (Blob.text (Json.arr ((es.map encodeAuditEntry).drop (es.length - 50)))) := by
  cases es with
  | nil => exact absurd rfl hne
  | cons e rest =>
      rw [List.foldl_cons]
      show (rest.foldl (fun kv e => addAuditEntry e kv)
          { medicalProfileBlob := none, sessionBlob := none,
            auditBlob := some (Blob.text (Json.arr (truncAudit ([] ++ [encodeAuditEntry e])))) }).auditBlob = _
      rw [addAuditEntry_fold rest none none _]
      have h1 : truncAudit ([] ++ [encodeAuditEntry e]) = [encodeAuditEntry e] := rfl
      rw [h1, auditFold_drop (rest.map encodeAuditEntry) [encodeAuditEntry e] (by simp)]
      have h2 : [encodeAuditEntry e] ++ rest.map encodeAuditEntry
          = (e :: rest).map encodeAuditEntry := by simp
      rw [h2]
      simp

/-- Witness for C5 at 60 concrete entries: exactly the last 50 remain. -/
theorem auditLog_cap_witness :
    (((List.range 60).map (fun i => AuditEntry.mk (toString i) "tick" none none)).foldl
        (fun kv e => addAuditEntry e kv) kvEmpty).auditBlob
      = some (Blob.text (Json.arr
          ((((List.range 60).map (fun i => AuditEntry.mk (toString i) "tick" none none)).map
              encodeAuditEntry).drop
            (((List.range 60).map (fun i => AuditEntry.mk (toString i) "tick" none none)).length - 50)))) :=
  auditLog_cap ((List.range 60).map (fun i => AuditEntry.mk (toString i) "tick" none none))
    (by simp)

/-! ## C7: size-routed set -/

/-- On a hex key rendered from bytes, `encrypt` succeeds and produces the
hex of the XOR stream. -/
theorem encrypt_bytesToHex (bs kb : List Nat) (hkne : kb ≠ []) (hkb : ∀ b ∈ kb, b < 256) :
    encrypt bs (bytesToHex kb) = .ok (bytesToHex (xorWithKey kb 0 bs)) := by
  have hkp := hexPairs_bytesToHex kb hkne
  have hkv : (kb.map fun b => (hexDigitChar (b / 16), hexDigitChar (b % 16))).map pairVal
      = kb := by
    have := parse_bytesToHex kb hkne hkb
    rw [hkp] at this
    simpa using this
  rw [encrypt, hkp]
  simp [hkv]

/-- Counterexample to C7 as stated: a small-value `set` writes the enclave
store but does not delete the stale copy of the key in the general encrypted
store — here `"k"` still maps to `"stale"` there afterwards. -/
theorem storeData_small_keeps_stale :
    storeData "k" "v" "00ff" { secure := [], async := [("k", "stale")] }
        = .ok { secure := [("k", "v")], async := [("k", "stale")] }
    ∧ ([("k", "stale")] : List (String × String)).lookup "k" = some "stale" :=
  ⟨rfl, rfl⟩

/-- C7 (amended): a value of length at most 1536 is written to the enclave
store with the general store left untouched (stale copy included); a larger
value is encrypted with the per-key symmetric key and written to the general
store, and only this branch deletes the stale enclave copy. -/
theorem storeData_spec (key data fresh : String) (st : RawState) :
    (data.length ≤ 1536 →
      storeData key data fresh st = .ok { st with secure := assocSet st.secure key data }) ∧
    (1536 < data.length →
      ∀ cipher, encrypt (strBytes data) (getEncryptionKey key fresh st).1 = .ok cipher →
        storeData key data fresh st
          = .ok { secure := assocDel (getEncryptionKey key fresh st).2.secure key,
                  async := assocSet (getEncryptionKey key fresh st).2.async key cipher }) := by
  constructor
  · intro h
    unfold storeData
    simp [h]
  · intro h cipher hc
    unfold storeData
    rw [if_neg (by omega)]
    unfold setItem
    rcases hge : getEncryptionKey key fresh st with ⟨ks, st1⟩
    rw [hge] at hc
    simp only [hge] at hc ⊢
    rw [hc]

/-- Witness for C7 (amended) at a 1-byte value and a 1537-byte value. -/
theorem storeData_spec_witness :
    storeData "k" "v" "f0" { secure := [], async := [] }
        = .ok { secure := assocSet [] "k" "v", async := [] }
    ∧ storeData "k" (String.mk (List.replicate 1537 'a')) (bytesToHex (List.range 32))
          { secure := [], async := [] }
        = .ok { secure := assocDel (getEncryptionKey "k" (bytesToHex (List.range 32))
                    { secure := [], async := [] }).2.secure "k",
                async := assocSet (getEncryptionKey "k" (bytesToHex (List.range 32))
                    { secure := [], async := [] }).2.async "k"
                  (bytesToHex (xorWithKey (List.range 32) 0
                    (strBytes (String.mk (List.replicate 1537 'a'))))) } :=
  ⟨(storeData_spec "k" "v" "f0" { secure := [], async := [] }).1 (by decide),
   (storeData_spec "k" (String.mk (List.replicate 1537 'a')) (bytesToHex (List.range 32))
       { secure := [], async := [] }).2
     (by
       have h : (String.mk (List.replicate 1537 'a')).length = 1537 := by
         show (List.replicate 1537 'a').length = 1537
         rw [List.length_replicate]
       omega)
     (bytesToHex (xorWithKey (List.range 32) 0 (strBytes (String.mk (List.replicate 1537 'a')))))
     (encrypt_bytesToHex (strBytes (String.mk (List.replicate 1537 'a'))) (List.range 32)
       (by decide) (by decide))⟩

/-! ## C6: primary-then-secondary notification -/

/-- C6: with SMS available, the service attempts every primary contact first,
attempts the secondary contacts exactly when no primary succeeded, and
returns precisely the names of the contacts whose delivery succeeded, in
attempt order; a per-contact delivery failure only drops that contact from
the result (the `send` outcome absorbs thrown per-contact errors, which the
source catches and converts to `false`). -/
theorem notify_primary_fallback (smsAvailable : Bool) (send : EmergencyContact → Bool)
    (profile : MedicalProfile) (h : smsAvailable = true) :
    attemptedContacts smsAvailable send profile
        = profile.emergencyContacts.filter (fun c => c.isPrimary)
          ++ (if (profile.emergencyContacts.filter (fun c => c.isPrimary)).filter send = []
              then profile.emergencyContacts.filter (fun c => !c.isPrimary) else [])
      ∧ notifyEmergencyContacts smsAvailable send profile
        = ((attemptedContacts smsAvailable send profile).filter send).map
            EmergencyContact.name := by
  subst h
  unfold attemptedContacts notifyEmergencyContacts
  simp only [Bool.not_true, Bool.false_eq_true, if_false, sendLoop_eq_filter_map,
    List.isEmpty_iff, List.map_eq_nil_iff]
  by_cases hp : (profile.emergencyContacts.filter (fun c => c.isPrimary)).filter send = []
  · simp [hp, List.filter_append]
  · rw [if_neg hp, if_neg hp, if_neg hp]
    simp

/-- The concrete profile of the C6 witness: a primary contact whose delivery
fails and a secondary contact whose delivery succeeds. -/
def profileW : MedicalProfile :=
  { id := "p1",
    personalInfo :=
      { firstName := "A", lastName := "B", dateOfBirth := "d", bloodType := none,
        allergies := [], medications := [] },
    emergencyContacts :=
      [{ id := "c1", name := "Prim", relationship := "r", phoneNumber := "1", isPrimary := true },
       { id := "c2", name := "Sec", relationship := "r", phoneNumber := "2", isPrimary := false }],
    medicalConditions := [], additionalNotes := none, lastUpdated := "t" }

/-- The delivery outcome of the C6 witness: only non-primary sends succeed. -/
def sendW : EmergencyContact → Bool := fun c => !c.isPrimary

/-- Witness for C6: one failing primary and one succeeding secondary — both
lists attempted, only the secondary's name returned. -/
theorem notify_primary_fallback_witness :
    (attemptedContacts true sendW profileW
        = profileW.emergencyContacts.filter (fun c => c.isPrimary)
          ++ (if (profileW.emergencyContacts.filter (fun c => c.isPrimary)).filter sendW = []
              then profileW.emergencyContacts.filter (fun c => !c.isPrimary) else [])
      ∧ notifyEmergencyContacts true sendW profileW
        = ((attemptedContacts true sendW profileW).filter sendW).map EmergencyContact.name)
    ∧ notifyEmergencyContacts true sendW profileW = ["Sec"] :=
  ⟨notify_primary_fallback true sendW profileW rfl, by decide⟩

/-! ## C10: in_progress with no held session -/

/-- C10: requesting `in_progress` while the session slot is empty skips the
whole branch: no session is created, the stores and audit log are untouched,
nothing is announced — yet the displayed status still becomes `in_progress`. -/
theorem inProgress_no_session (now : String) (lo : LocationOutcome) (no : NotifyOutcome)
    (m : AppModel) (h : m.sessionSlot = none) :
    handleStatusChange now lo no m .in_progress
      = { m with displayedStatus := .in_progress } := by
  unfold handleStatusChange
  simp [h]

/-- Witness for C10 on a fresh app state. -/
theorem inProgress_no_session_witness :
    handleStatusChange "t1" LocationOutcome.nullResult (NotifyOutcome.ok [])
        (initialAppModel kvEmpty) .in_progress
      = { initialAppModel kvEmpty with displayedStatus := .in_progress } :=
  inProgress_no_session "t1" LocationOutcome.nullResult (NotifyOutcome.ok [])
    (initialAppModel kvEmpty) rfl

/-! ## C3: in_progress → follow_up -/

/-- The held session of the C3 counterexample: `in_progress`, one audit entry. -/
def sessionC3 : EmergencySession :=
  { id := "emergency_0", startTime := "t0", status := .in_progress, location := none,
    medicalProfileId := "unknown", contactsNotified := [],
    auditLog := [AuditEntry.mk "t0" "emergency_initiated" (some "Emergency button pressed") none] }

/-- The app state of the C3 counterexample. -/
def modelC3 : AppModel :=
  { initialAppModel kvEmpty with displayedStatus := .in_progress, sessionSlot := some sessionC3 }

/-- Counterexample to C3 as stated: after the `follow_up` request the held
session is unchanged — its status is still `in_progress` and its audit log
still has its single original entry (nothing was appended) — and no store was
written. -/
theorem followUp_counterexample :
    (handleStatusChange "t1" LocationOutcome.nullResult (NotifyOutcome.ok [])
        modelC3 .follow_up).sessionSlot = some sessionC3
    ∧ sessionC3.status = .in_progress
    ∧ sessionC3.auditLog.length = 1
    ∧ (handleStatusChange "t1" LocationOutcome.nullResult (NotifyOutcome.ok [])
        modelC3 .follow_up).kv = modelC3.kv :=
  ⟨rfl, rfl, rfl, rfl⟩

/-- C3 (amended): the `in_progress → follow_up` transition makes no
collaborator calls and performs no session mutation, no persistence and no
audit append — `handleStatusChange` has no `follow_up` branch, so only the
in-memory displayed status becomes `follow_up`. -/
theorem followUp_displayed_only (now : String) (lo : LocationOutcome)
    (no : NotifyOutcome) (m : AppModel) :
    handleStatusChange now lo no m .follow_up
      = { m with displayedStatus := .follow_up } := rfl

/-! ## C1 and C4: loading terminal or corrupt persisted sessions -/

/-- Evaluate the session load on a store whose session slot parses to `j`. -/
theorem getEmergencySession_text (now : String) (kv : KV) (j : Json)
    (h : kv.sessionBlob = some (Blob.text j)) :
    getEmergencySession now kv
      = .ok (some (decodeSession j),
          addAuditEntry
            { timestamp := now, action := "emergency_session_accessed",
              details := some ("Session " ++ (decodeSession j).id ++ " accessed"),
              userId := none } kv) := by
  unfold getEmergencySession
  rw [h]

/-- Evaluate the session load on a store whose session slot is corrupt. -/
theorem getEmergencySession_corrupt (now : String) (kv : KV)
    (h : kv.sessionBlob = some Blob.corrupt) :
    getEmergencySession now kv = .error "Failed to retrieve emergency session" := by
  unfold getEmergencySession
  rw [h]

/-- Terminal persisted session of the C1 counterexample. -/
def sessionC1 : EmergencySession :=
  { id := "emergency_1", startTime := "t0", status := .completed, location := none,
    medicalProfileId := "unknown", contactsNotified := [], auditLog := [] }

/-- Store of the C1 counterexample: only the completed session persisted. -/
def kvC1 : KV :=
  { medicalProfileBlob := none, sessionBlob := some (Blob.text (encodeSession sessionC1)),
    auditBlob := none }

/-- Counterexample to C1 as stated: on a persisted session whose status is
the terminal `completed`, the load operation returns that session — not the
absent result. -/
theorem load_terminal_counterexample :
    (getEmergencySession "t1" kvC1).map Prod.fst = .ok (some sessionC1)
    ∧ sessionC1.status = .completed := by
  constructor
  · rw [getEmergencySession_text "t1" kvC1 (encodeSession sessionC1) rfl]
    simp [decodeSession_encodeSession, Except.map]
  · rfl

/-- App initialization on a store persisting a terminal session: the session
slot stays empty and the status stays `detection`, whatever the profile slot
holds. -/
theorem initializeApp_terminal (now : String) (mp ab : Option Blob) (s : EmergencySession)
    (hterm : s.status = .completed ∨ s.status = .cancelled) :
    (initializeApp now ⟨mp, some (Blob.text (encodeSession s)), ab⟩).sessionSlot = none
    ∧ (initializeApp now ⟨mp, some (Blob.text (encodeSession s)), ab⟩).displayedStatus
        = .detection := by
  have hterm2 : ¬(s.status ≠ EmergencyStatus.completed
      ∧ s.status ≠ EmergencyStatus.cancelled) := by
    rcases hterm with h | h <;> simp [h]
  rcases mp with _ | b
  · simp only [initializeApp, getMedicalProfile]
    rw [getEmergencySession_text now _ (encodeSession s) rfl]
    simp [decodeSession_encodeSession, hterm2, initialAppModel]
  · rcases b with j | _
    · simp only [initializeApp, getMedicalProfile]
      rw [getEmergencySession_text now _ (encodeSession s) (by rw [addAuditEntry_sessionBlob])]
      simp [decodeSession_encodeSession, hterm2, initialAppModel]
    · simp [initializeApp, getMedicalProfile, initialAppModel]

/-- C1 (amended): the session-load primitive returns a terminal session as-is
(see the counterexample); it is app initialization that treats a persisted
terminal session as no active session — empty slot, status `detection` — and
after a `completed` transition plus the grace delay the in-memory slot is
cleared while the persisted slot still holds the completed session. -/
theorem terminal_session_amended :
    (∀ (now : String) (mp ab : Option Blob) (s : EmergencySession),
        s.status = .completed ∨ s.status = .cancelled →
        (initializeApp now ⟨mp, some (Blob.text (encodeSession s)), ab⟩).sessionSlot = none
        ∧ (initializeApp now ⟨mp, some (Blob.text (encodeSession s)), ab⟩).displayedStatus
            = .detection)
    ∧ (∀ (now : String) (lo : LocationOutcome) (no : NotifyOutcome) (m : AppModel)
          (s : EmergencySession),
        m.sessionSlot = some s →
        (fireGraceDelay (handleStatusChange now lo no m .completed)).sessionSlot = none
        ∧ (fireGraceDelay (handleStatusChange now lo no m .completed)).displayedStatus
            = .detection
        ∧ (handleStatusChange now lo no m .completed).kv.sessionBlob
            = some (Blob.text (encodeSession
                { s with status := .completed,
                         auditLog := s.auditLog
                           ++ [AuditEntry.mk now "emergency_completed"
                                (some "Emergency completed") none] }))) := by
  constructor
  · intro now mp ab s hterm
    exact initializeApp_terminal now mp ab s hterm
  · intro now lo no m s h
    unfold handleStatusChange terminalStep fireGraceDelay
    simp [h, saveEmergencySession_sessionBlob, encodeStatus]

/-- The `follow_up` session of the C1 witness. -/
def sessionF : EmergencySession :=
  { id := "emergency_2", startTime := "t0", status := .follow_up, location := none,
    medicalProfileId := "unknown", contactsNotified := [], auditLog := [] }

/-- The app state of the C1 witness, holding the `follow_up` session. -/
def modelF : AppModel :=
  { initialAppModel kvEmpty with displayedStatus := .follow_up, sessionSlot := some sessionF }

/-- Witness for C1 (amended): a persisted completed session at startup, and a
`follow_up → completed` transition followed by the grace delay. -/
theorem terminal_session_amended_witness :
    ((initializeApp "t1" ⟨none, some (Blob.text (encodeSession sessionC1)), none⟩).sessionSlot
          = none
      ∧ (initializeApp "t1"
            ⟨none, some (Blob.text (encodeSession sessionC1)), none⟩).displayedStatus
          = .detection)
    ∧ ((fireGraceDelay (handleStatusChange "t2" LocationOutcome.nullResult
            (NotifyOutcome.ok []) modelF .completed)).sessionSlot = none
      ∧ (fireGraceDelay (handleStatusChange "t2" LocationOutcome.nullResult
            (NotifyOutcome.ok []) modelF .completed)).displayedStatus = .detection
      ∧ (handleStatusChange "t2" LocationOutcome.nullResult (NotifyOutcome.ok [])
            modelF .completed).kv.sessionBlob
          = some (Blob.text (encodeSession
              { sessionF with status := .completed,
                              auditLog := sessionF.auditLog
                                ++ [AuditEntry.mk "t2" "emergency_completed"
                                     (some "Emergency completed") none] }))) :=
  ⟨terminal_session_amended.1 "t1" none none sessionC1 (Or.inl rfl),
   terminal_session_amended.2 "t2" LocationOutcome.nullResult (NotifyOutcome.ok [])
     modelF sessionF rfl⟩

/-- Store of the C4 counterexample: a session slot `JSON.parse` rejects. -/
def kvC4 : KV :=
  { medicalProfileBlob := none, sessionBlob := some Blob.corrupt, auditBlob := none }

/-- Counterexample to C4 as stated: on a corrupt persisted session blob the
load operation raises the wrapped retrieval error instead of returning the
absent result. -/
theorem load_corrupt_counterexample :
    getEmergencySession "t1" kvC4 = .error "Failed to retrieve emergency session" := rfl

/-- App initialization on a store whose session blob is corrupt: the load
error is caught and the state stays at its defaults. -/
theorem initializeApp_corrupt (now : String) (mp ab : Option Blob) :
    (initializeApp now ⟨mp, some Blob.corrupt, ab⟩).sessionSlot = none
    ∧ (initializeApp now ⟨mp, some Blob.corrupt, ab⟩).displayedStatus = .detection := by
  rcases mp with _ | b
  · simp only [initializeApp, getMedicalProfile]
    rw [getEmergencySession_corrupt now _ rfl]
    simp [initialAppModel]
  · rcases b with j | _
    · simp only [initializeApp, getMedicalProfile]
      rw [getEmergencySession_corrupt now _ (by rw [addAuditEntry_sessionBlob])]
      simp [initialAppModel]
    · simp [initializeApp, getMedicalProfile, initialAppModel]

/-- C4 (amended): a persisted session blob that fails to deserialize makes
the load operation raise a wrapped retrieval error — it does not return the
absent result; the fail-open behavior lives one level up, where the app
initializer catches the error and proceeds with no session (`detection`). -/
theorem corrupt_session_amended (now : String) (mp ab : Option Blob) :
    getEmergencySession now ⟨mp, some Blob.corrupt, ab⟩
        = .error "Failed to retrieve emergency session"
    ∧ (initializeApp now ⟨mp, some Blob.corrupt, ab⟩).sessionSlot = none
    ∧ (initializeApp now ⟨mp, some Blob.corrupt, ab⟩).displayedStatus = .detection :=
  ⟨getEmergencySession_corrupt now _ rfl,
   (initializeApp_corrupt now mp ab).1, (initializeApp_corrupt now mp ab).2⟩

/-! ## C2: confirmation → in_progress degrades gracefully -/

/-- C2: with a session held, the `in_progress` transition completes for every
location outcome (data, null, timeout, other error) and every notifier
outcome (names returned or a thrown error): the displayed status and the
session status reach `in_progress`, the session is persisted, and the
`emergency_confirmed` audit entry records the matching location-outcome
string — one of `obtained`, `permission_denied`, `timeout`, `failed`. -/
theorem inProgress_degrades (now : String) (lo : LocationOutcome) (no : NotifyOutcome)
    (m : AppModel) (es : EmergencySession) (h : m.sessionSlot = some es) :
    (handleStatusChange now lo no m .in_progress).displayedStatus = .in_progress
    ∧ (∃ s2, (handleStatusChange now lo no m .in_progress).sessionSlot = some s2
        ∧ s2.status = .in_progress
        ∧ AuditEntry.mk now "emergency_confirmed"
            (some ("Emergency confirmed - Location: " ++ locStatusString lo)) none
            ∈ s2.auditLog
        ∧ (handleStatusChange now lo no m .in_progress).kv.sessionBlob
            = some (Blob.text (encodeSession s2)))
    ∧ (locStatusString lo = "obtained" ∨ locStatusString lo = "permission_denied"
        ∨ locStatusString lo = "timeout" ∨ locStatusString lo = "failed") := by
  refine ⟨?_, ?_, ?_⟩
  · unfold handleStatusChange
    rcases m with ⟨ds, slot, prof, kv, ann, al, pr⟩
    simp only at h
    subst h
    rcases prof with _ | p <;> rcases no with names | msg <;> simp
  · unfold handleStatusChange
    rcases m with ⟨ds, slot, prof, kv, ann, al, pr⟩
    simp only at h
    subst h
    rcases prof with _ | p <;> rcases no with names | msg <;>
      refine ⟨_, rfl, rfl, by simp, ?_⟩ <;>
      exact saveEmergencySession_sessionBlob now _ _
  · rcases lo with l | _ | msg
    · simp [locStatusString]
    · simp [locStatusString]
    · by_cases hm : msg = "Location timeout" <;> simp [locStatusString, hm]

/-- The held session of the C2 witness (post-confirmation). -/
def sessionC2 : EmergencySession :=
  { id := "emergency_3", startTime := "t0", status := .confirmation, location := none,
    medicalProfileId := "p1", contactsNotified := [],
    auditLog := [AuditEntry.mk "t0" "emergency_initiated" (some "Emergency button pressed") none] }

/-- The app state of the C2 witness. -/
def modelC2 : AppModel :=
  { initialAppModel kvEmpty with displayedStatus := .confirmation, sessionSlot := some sessionC2 }

/-- Witness for C2 with a concrete location fix and one notified contact. -/
theorem inProgress_degrades_witness :
    (handleStatusChange "t3" (LocationOutcome.success ⟨37, -122, 5, "t1"⟩)
        (NotifyOutcome.ok ["Prim"]) modelC2 .in_progress).displayedStatus = .in_progress
    ∧ (∃ s2, (handleStatusChange "t3" (LocationOutcome.success ⟨37, -122, 5, "t1"⟩)
          (NotifyOutcome.ok ["Prim"]) modelC2 .in_progress).sessionSlot = some s2
        ∧ s2.status = .in_progress
        ∧ AuditEntry.mk "t3" "emergency_confirmed"
            (some ("Emergency confirmed - Location: "
              ++ locStatusString (LocationOutcome.success ⟨37, -122, 5, "t1"⟩))) none
            ∈ s2.auditLog
        ∧ (handleStatusChange "t3" (LocationOutcome.success ⟨37, -122, 5, "t1"⟩)
            (NotifyOutcome.ok ["Prim"]) modelC2 .in_progress).kv.sessionBlob
            = some (Blob.text (encodeSession s2)))
    ∧ (locStatusString (LocationOutcome.success ⟨37, -122, 5, "t1"⟩) = "obtained"
        ∨ locStatusString (LocationOutcome.success ⟨37, -122, 5, "t1"⟩) = "permission_denied"
        ∨ locStatusString (LocationOutcome.success ⟨37, -122, 5, "t1"⟩) = "timeout"
        ∨ locStatusString (LocationOutcome.success ⟨37, -122, 5, "t1"⟩) = "failed") :=
  inProgress_degrades "t3" (LocationOutcome.success ⟨37, -122, 5, "t1"⟩)
    (NotifyOutcome.ok ["Prim"]) modelC2 sessionC2 rfl
